import Mathlib

/-!
Verification development for the Cortex runtime orchestration core.

Shallow embedding of:
  - `src/core/events.ts` (event data model)
  - the event bus (`createEventBus`: emit/on/off with snapshot dispatch)
  - `src/runtime/prompt-builder.ts` (`buildSystemPrompt`, `buildMessages`)
  - `src/runtime/claude-process.ts` (`spawnClaude`, `extractText`,
    including a model of `JSON.parse` over a JSON value type)
  - `src/runtime/runner.ts` (`createClaudeRunner`'s `run`)

Effects (event emission, persistence calls, the child process, the clock)
are made explicit: collaborator outcomes are inputs, and observable actions
are returned as traces.
-/

/-- Event kinds, from `AgentEventType` in `src/core/events.ts`. -/
inductive AgentEventType where
  | AgentStarted
  | AgentStreaming
  | AgentCompleted
  | AgentErrored
deriving DecidableEq, Repr

/-- Events, from `AgentEvent` in `src/core/events.ts`. The `Error` payload of
`AgentErrored` is represented by its message string. -/
inductive AgentEvent where
  | started (agentName : String)
  | streaming (agentName : String) (chunk : String)
  | completed (agentName : String) (fullResponse : String)
  | errored (agentName : String) (message : String)
deriving DecidableEq, Repr

/-- The `type` discriminant of an event. -/
def AgentEvent.type : AgentEvent → AgentEventType
  | .started _ => .AgentStarted
  | .streaming _ _ => .AgentStreaming
  | .completed _ _ => .AgentCompleted
  | .errored _ _ => .AgentErrored

/-- The `agentName` field common to every event variant. -/
def AgentEvent.agent : AgentEvent → String
  | .started a => a
  | .streaming a _ => a
  | .completed a _ => a
  | .errored a _ => a

/-- Whether an event is a Streaming event. -/
def AgentEvent.isStreaming : AgentEvent → Bool
  | .streaming _ _ => true
  | _ => false

/-- Whether an event is terminal (Completed or Errored). -/
def AgentEvent.isTerminal : AgentEvent → Bool
  | .completed _ _ => true
  | .errored _ _ => true
  | _ => false

/-- Handler references are abstract identities (JS function references are
compared by reference; we model each distinct function object by a number). -/
abbrev HandlerId := Nat

/-- The subscriber registry of `createEventBus`: per event kind, the
insertion-ordered list of distinct handler references. A JS `Set` keyed by
reference preserves insertion order and never holds duplicates; the map's
missing-entry case is modelled by the empty list. -/
def Bus := AgentEventType → List HandlerId

/-- The empty registry (a fresh bus from `createEventBus`). -/
def Bus.empty : Bus := fun _ => []

/-- `on(type, handler)`: `getOrCreate(type).add(handler)`. `Set.add` is a
no-op when the reference is already present, otherwise appends it. -/
def Bus.on (b : Bus) (k : AgentEventType) (h : HandlerId) : Bus :=
  fun k2 => if k2 = k then (if h ∈ b k then b k else b k ++ [h]) else b k2

/-- `off(type, handler)`: `handlers.get(type)?.delete(handler)` — removes the
reference from that kind's set (no duplicates exist in a `Set`, so removing
every copy coincides with `Set.delete`). The unsubscribe closure returned by
`on` performs exactly this same deletion. -/
def Bus.off (b : Bus) (k : AgentEventType) (h : HandlerId) : Bus :=
  fun k2 => if k2 = k then (b k).filter (fun x => x ≠ h) else b k2

/-- What a handler does to the registry when invoked: handlers may subscribe
or unsubscribe themselves or siblings during dispatch. The handler body's
other effects are irrelevant to the bus. -/
def HandlerEffect := HandlerId → AgentEvent → Bus → Bus

/-- The `for (const handler of [...set]) handler(event)` loop: iterate over a
list fixed before dispatch, threading the registry through handler effects.
Returns the invocation log (in call order) and the final registry. -/
def dispatchSeq (eff : HandlerEffect) (e : AgentEvent) :
    List HandlerId → Bus → List HandlerId × Bus
  | [], b => ([], b)
  | h :: rest, b =>
    let b2 := eff h e b
    let p := dispatchSeq eff e rest b2
    (h :: p.1, p.2)

/-- `emit(event)`: look up the set for the event's kind and iterate a snapshot
of it (`[...set]`), invoking each handler with the event. -/
def Bus.emit (b : Bus) (eff : HandlerEffect) (e : AgentEvent) :
    List HandlerId × Bus :=
  dispatchSeq eff e (b e.type) b

/-- Registry well-formedness: a JS `Set` never holds duplicates. -/
def Bus.WF (b : Bus) : Prop := ∀ k, (b k).Nodup

/-- Message role (`'user' | 'assistant'` in `src/core/types.ts`). -/
inductive Role where
  | user
  | assistant
deriving DecidableEq, Repr

/-- A conversation turn, from `Message` in `src/core/types.ts`. -/
structure Message where
  role : Role
  content : String
  timestamp : Nat
deriving DecidableEq, Repr

/-- Agent configuration, from `AgentConfig` in `src/core/types.ts`. -/
structure AgentConfig where
  name : String
  description : String
  model : String
  brain : String
  memory : String
  tools : List String
deriving DecidableEq, Repr

/-- Input to a run, from `RunnerInput` in `src/core/types.ts`. -/
structure RunnerInput where
  agentConfig : AgentConfig
  userMessage : String
deriving DecidableEq, Repr

/-- Characters removed by the JS `trim()` at either end, modelled as ASCII
whitespace (space, tab, carriage return, newline). -/
def trimChars (cs : List Char) : List Char :=
  ((cs.dropWhile Char.isWhitespace).reverse.dropWhile Char.isWhitespace).reverse

/-- Model of the JS `String.prototype.trim`. -/
def jsTrim (s : String) : String := String.mk (trimChars s.toList)

/-- Model of the JS `split('\n')` on the character list: groups between
newline separators, keeping empty groups (so `"a\n"` yields `["a", ""]`). -/
def splitNlChars : List Char → List (List Char)
  | [] => [[]]
  | c :: rest =>
    if c = '\n' then [] :: splitNlChars rest
    else
      match splitNlChars rest with
      | [] => [[c]]
      | g :: gs => (c :: g) :: gs

/-- Model of the JS `raw.split('\n')`. -/
def splitLines (s : String) : List String := (splitNlChars s.toList).map String.mk

/-- `buildSystemPrompt` from `src/runtime/prompt-builder.ts`: the memory
section is omitted entirely when the trimmed memory is empty (the JS code
tests `!trimmedMemory`, i.e. the empty string). -/
def buildSystemPrompt (brain : String) (memory : String) : String :=
  let trimmedMemory := jsTrim memory
  if trimmedMemory = "" then jsTrim brain
  else jsTrim brain ++ "\n\n---\n## Memory\n\n" ++ trimmedMemory

/-- `buildMessages` from `src/runtime/prompt-builder.ts`; the JS code stamps
the new message with `Date.now()`, made explicit here as `now`. -/
def buildMessages (history : List Message) (userMessage : String) (now : Nat) :
    List Message :=
  history ++ [{ role := Role.user, content := userMessage, timestamp := now }]

/-- JSON values as produced by `JSON.parse`. Numbers keep their raw token
text: the code under study never inspects a numeric value, only truthiness. -/
inductive JsonValue where
  | null
  | bool (b : Bool)
  | num (raw : String)
  | str (s : String)
  | arr (elems : List JsonValue)
  | obj (fields : List (String × JsonValue))
deriving Repr

/-- JSON whitespace per RFC 8259 (what `JSON.parse` skips between tokens). -/
def isJsonWs (c : Char) : Bool :=
  c = ' ' || c = '\t' || c = '\n' || c = '\r'

/-- Drop leading JSON whitespace. -/
def skipWs : List Char → List Char
  | [] => []
  | c :: rest => if isJsonWs c then skipWs rest else c :: rest

/-- Value of a hexadecimal digit. -/
def hexVal (c : Char) : Option Nat :=
  if '0' ≤ c ∧ c ≤ '9' then some (c.toNat - '0'.toNat)
  else if 'a' ≤ c ∧ c ≤ 'f' then some (c.toNat - 'a'.toNat + 10)
  else if 'A' ≤ c ∧ c ≤ 'F' then some (c.toNat - 'A'.toNat + 10)
  else none

/-- Body of a JSON string literal, after the opening quote: returns the
decoded characters and the remainder after the closing quote. -/
def parseStrChars : List Char → Option (List Char × List Char)
  | [] => none
  | '"' :: rest => some ([], rest)
  | '\\' :: '"' :: rest => (parseStrChars rest).map fun p => ('"' :: p.1, p.2)
  | '\\' :: '\\' :: rest => (parseStrChars rest).map fun p => ('\\' :: p.1, p.2)
  | '\\' :: '/' :: rest => (parseStrChars rest).map fun p => ('/' :: p.1, p.2)
  | '\\' :: 'b' :: rest =>
    (parseStrChars rest).map fun p => (Char.ofNat 8 :: p.1, p.2)
  | '\\' :: 'f' :: rest =>
    (parseStrChars rest).map fun p => (Char.ofNat 12 :: p.1, p.2)
  | '\\' :: 'n' :: rest => (parseStrChars rest).map fun p => ('\n' :: p.1, p.2)
  | '\\' :: 'r' :: rest => (parseStrChars rest).map fun p => ('\r' :: p.1, p.2)
  | '\\' :: 't' :: rest => (parseStrChars rest).map fun p => ('\t' :: p.1, p.2)
  | '\\' :: 'u' :: h1 :: h2 :: h3 :: h4 :: rest =>
    match hexVal h1, hexVal h2, hexVal h3, hexVal h4 with
    | some a, some b, some c, some d =>
      (parseStrChars rest).map fun p =>
        (Char.ofNat (((a * 16 + b) * 16 + c) * 16 + d) :: p.1, p.2)
    | _, _, _, _ => none
  | '\\' :: _ => none
  | c :: rest =>
    if c.toNat < 32 then none
    else (parseStrChars rest).map fun p => (c :: p.1, p.2)

/-- Take a maximal run of decimal digits. -/
def takeDigits : List Char → List Char × List Char
  | [] => ([], [])
  | c :: rest =>
    if c.isDigit then
      let p := takeDigits rest
      (c :: p.1, p.2)
    else ([], c :: rest)

/-- Optional fractional part of a JSON number token. -/
def parseFrac : List Char → Option (List Char × List Char)
  | '.' :: rest =>
    let p := takeDigits rest
    if p.1 = [] then none else some ('.' :: p.1, p.2)
  | cs => some ([], cs)

/-- Optional exponent part of a JSON number token. -/
def parseExp : List Char → Option (List Char × List Char)
  | [] => some ([], [])
  | c :: rest =>
    if c = 'e' || c = 'E' then
      match rest with
      | '+' :: r =>
        let p := takeDigits r
        if p.1 = [] then none else some (c :: '+' :: p.1, p.2)
      | '-' :: r =>
        let p := takeDigits r
        if p.1 = [] then none else some (c :: '-' :: p.1, p.2)
      | r =>
        let p := takeDigits r
        if p.1 = [] then none else some (c :: p.1, p.2)
    else some ([], c :: rest)

/-- A JSON number token after the optional minus sign. -/
def parseNumTail : List Char → Option (List Char × List Char)
  | [] => none
  | c :: rest =>
    if c = '0' then
      (parseFrac rest).bind fun f =>
      (parseExp f.2).map fun ex => (c :: (f.1 ++ ex.1), ex.2)
    else if c.isDigit then
      let d := takeDigits rest
      (parseFrac d.2).bind fun f =>
      (parseExp f.2).map fun ex => (c :: (d.1 ++ f.1 ++ ex.1), ex.2)
    else none

/-- A JSON number token (grammar of RFC 8259), kept as raw characters. -/
def parseNumChars (cs : List Char) : Option (List Char × List Char) :=
  match cs with
  | '-' :: cs1 => (parseNumTail cs1).map fun p => ('-' :: p.1, p.2)
  | cs1 => parseNumTail cs1

mutual

/-- One JSON value, fuel-indexed (fuel bounds nesting depth; callers supply
more fuel than the input's length, so it never runs out on valid input). -/
def parseValue : Nat → List Char → Option (JsonValue × List Char)
  | 0, _ => none
  | fuel + 1, cs =>
    match skipWs cs with
    | 'n' :: 'u' :: 'l' :: 'l' :: rest => some (JsonValue.null, rest)
    | 't' :: 'r' :: 'u' :: 'e' :: rest => some (JsonValue.bool true, rest)
    | 'f' :: 'a' :: 'l' :: 's' :: 'e' :: rest => some (JsonValue.bool false, rest)
    | '"' :: rest => (parseStrChars rest).map fun p => (JsonValue.str (String.mk p.1), p.2)
    | '[' :: rest =>
      match skipWs rest with
      | ']' :: rest2 => some (JsonValue.arr [], rest2)
      | cs2 => (parseElems fuel cs2).map fun p => (JsonValue.arr p.1, p.2)
    | '{' :: rest =>
      match skipWs rest with
      | '}' :: rest2 => some (JsonValue.obj [], rest2)
      | cs2 => (parseFields fuel cs2).map fun p => (JsonValue.obj p.1, p.2)
    | cs1 => (parseNumChars cs1).map fun p => (JsonValue.num (String.mk p.1), p.2)

/-- Comma-separated array elements, up to and including the closing bracket. -/
def parseElems : Nat → List Char → Option (List JsonValue × List Char)
  | 0, _ => none
  | fuel + 1, cs =>
    (parseValue fuel cs).bind fun p =>
    match skipWs p.2 with
    | ',' :: rest => (parseElems fuel rest).map fun q => (p.1 :: q.1, q.2)
    | ']' :: rest => some ([p.1], rest)
    | _ => none

/-- Comma-separated object members, up to and including the closing brace. -/
def parseFields : Nat → List Char → Option (List (String × JsonValue) × List Char)
  | 0, _ => none
  | fuel + 1, cs =>
    match skipWs cs with
    | '"' :: rest =>
      (parseStrChars rest).bind fun k =>
      match skipWs k.2 with
      | ':' :: rest2 =>
        (parseValue fuel rest2).bind fun v =>
        match skipWs v.2 with
        | ',' :: rest3 =>
          (parseFields fuel rest3).map fun q => ((String.mk k.1, v.1) :: q.1, q.2)
        | '}' :: rest3 => some ([(String.mk k.1, v.1)], rest3)
        | _ => none
      | _ => none
    | _ => none

end

/-- `JSON.parse`: parse one value and require only whitespace after it;
`none` models the thrown `SyntaxError`. -/
def parseJson (s : String) : Option JsonValue :=
  match parseValue (s.length + 1) s.toList with
  | some (v, rest) => if skipWs rest = [] then some v else none
  | none => none

/-- JS property read `v[k]` on a `JSON.parse` result other than `null`:
a field of an object (`JSON.parse` keeps the last duplicate key), and
`undefined` (`none`) on absent fields and on non-object values. -/
def jsGet : JsonValue → String → Option JsonValue
  | JsonValue.obj fields, k =>
    fields.foldl (fun acc kv => if kv.1 = k then some kv.2 else acc) none
  | _, _ => none

/-- JS truthiness of a `JSON.parse` result (`null`, `false`, numeric zero and
the empty string are falsy). -/
def jsTruthy : JsonValue → Bool
  | JsonValue.null => false
  | JsonValue.bool b => b
  | JsonValue.str s => s ≠ ""
  | JsonValue.num raw =>
    ((raw.toList.takeWhile fun c => c ≠ 'e' ∧ c ≠ 'E').any fun c =>
      '1' ≤ c ∧ c ≤ '9')
  | JsonValue.arr _ => true
  | JsonValue.obj _ => true

/-- `extractText` from `src/runtime/claude-process.ts`: returns the delta text
of a `content_block_delta` object whose `delta.text` is a string, else `""`.
`Except.error ()` models the `TypeError` JS raises for `parsed['type']` when
`parsed` is `null` (the only unguarded access: `delta` is guarded by
`delta && ...`, and `typeof delta['text'] === 'string'` is checked). The
caller's `try` block covers this call, so the error becomes the fallback. -/
def extractText (parsed : JsonValue) : Except Unit String :=
  match parsed with
  | JsonValue.null => Except.error ()
  | _ =>
    match jsGet parsed "type" with
    | some (JsonValue.str t) =>
      if t = "content_block_delta" then
        match jsGet parsed "delta" with
        | some delta =>
          if jsTruthy delta then
            match jsGet delta "text" with
            | some (JsonValue.str s) => Except.ok s
            | _ => Except.ok ""
          else Except.ok ""
        | none => Except.ok ""
      else Except.ok ""
    | _ => Except.ok ""

/-- The stdout-line handling of `spawnClaude` (body of the `for` loop over
`raw.split('\n')`): the chunk text this line contributes, or `none` when the
line contributes nothing. Empty-after-trim lines are skipped; a line whose
`JSON.parse` or `extractText` throws falls back to the raw trimmed line; a
line that parses but yields empty text (`if (text)`) contributes nothing. -/
def processLine (line : String) : Option String :=
  let trimmed := jsTrim line
  if trimmed = "" then none
  else
    match parseJson trimmed with
    | some parsed =>
      match extractText parsed with
      | Except.ok text => if text ≠ "" then some text else none
      | Except.error _ => some trimmed
    | none => some trimmed

/-- The streaming loop of `spawnClaude` over the stdout lines: for each line
contributing a chunk `t`, append `t` to `fullResponse` and emit
`AgentStreaming` with `t`. Returns the emitted events and the accumulated
`fullResponse`. -/
def streamFold (agentName : String) : List String → List AgentEvent × String
  | [] => ([], "")
  | line :: rest =>
    match processLine line with
    | some t =>
      let p := streamFold agentName rest
      (AgentEvent.streaming agentName t :: p.1, t ++ p.2)
    | none => streamFold agentName rest

/-- Options passed to the spawn function (`SpawnOptions` minus the event bus,
which is modelled by the returned event trace). -/
structure SpawnOptions where
  model : String
  agentName : String
  systemPrompt : String
  messages : List Message
deriving DecidableEq, Repr

/-- How one child-process invocation behaves: the stdout data payloads (each
split on newlines by the handler), the stderr data payloads, and how the
handle terminates. Per Node's `child_process` semantics a handle may fire
`error` and then still fire `close` — documented to happen with a `null`
exit code when the child failed to spawn (`errorThenClose`); `errorEvent`
is an `error` not followed by `close`, and `close` a termination without an
`error` event. -/
inductive ProcOutcome where
  | errorEvent (message : String)
  | errorThenClose (message : String) (code : Option Int)
  | close (code : Option Int)
deriving DecidableEq, Repr

/-- Observable behavior of a spawned process handle. -/
structure RunBehavior where
  stdoutData : List String
  stderrData : List String
  outcome : ProcOutcome
deriving DecidableEq, Repr

/-- Behavior of the `spawn` call itself: a synchronous throw, or a handle. -/
inductive ProcBehavior where
  | spawnThrow (message : String)
  | spawned (rb : RunBehavior)
deriving DecidableEq, Repr

/-- `String(code)` for the `number | null` close code. -/
def codeString : Option Int → String
  | some n => toString n
  | none => "null"

/-- `spawnClaude` from `src/runtime/claude-process.ts`, as a function of the
process behavior: returns the events emitted on the bus (in order) and the
promise's resolution (`none` on every failure path). `AgentStarted` is
emitted before the spawn attempt; stdout data is line-split and streamed;
stderr is accumulated; on `close` with nonzero (or null) code an
`AgentErrored` carries the trimmed stderr, or a generic exit-code message
when stderr trims to empty; on code 0 an `AgentCompleted` carries the
accumulated response, which is also the resolution. When `close` fires after
`error`, both handlers run: the `settled` flag makes the second `settle` a
no-op (the `error` handler's `null` wins), but nothing guards the emissions,
so the `close` handler publishes its event as well. -/
def spawnClaude (opts : SpawnOptions) (beh : ProcBehavior) :
    List AgentEvent × Option String :=
  match beh with
  | ProcBehavior.spawnThrow msg =>
    ([AgentEvent.started opts.agentName, AgentEvent.errored opts.agentName msg], none)
  | ProcBehavior.spawned rb =>
    let lines := rb.stdoutData.flatMap splitLines
    let st := streamFold opts.agentName lines
    let stderrText := String.join rb.stderrData
    match rb.outcome with
    | ProcOutcome.errorEvent msg =>
      (AgentEvent.started opts.agentName ::
        st.1 ++ [AgentEvent.errored opts.agentName msg], none)
    | ProcOutcome.errorThenClose msg code =>
      if code ≠ some 0 then
        let msg2 :=
          if jsTrim stderrText ≠ "" then jsTrim stderrText
          else "Claude exited with code " ++ codeString code
        (AgentEvent.started opts.agentName ::
          st.1 ++ [AgentEvent.errored opts.agentName msg,
            AgentEvent.errored opts.agentName msg2], none)
      else
        (AgentEvent.started opts.agentName ::
          st.1 ++ [AgentEvent.errored opts.agentName msg,
            AgentEvent.completed opts.agentName st.2], none)
    | ProcOutcome.close code =>
      if code ≠ some 0 then
        let msg :=
          if jsTrim stderrText ≠ "" then jsTrim stderrText
          else "Claude exited with code " ++ codeString code
        (AgentEvent.started opts.agentName ::
          st.1 ++ [AgentEvent.errored opts.agentName msg], none)
      else
        (AgentEvent.started opts.agentName ::
          st.1 ++ [AgentEvent.completed opts.agentName st.2], some st.2)

/-- Outcomes of the runner's collaborators for one `run` invocation
(`createClaudeRunner` in `src/runtime/runner.ts`). Each awaited call either
returns a value or throws (`Except.error`). The spawn function is modelled by
its resolution only — `spawnClaude` never rejects (see its own model above) —
and the two `Date.now()` reads are explicit clock values. -/
structure RunnerEnv where
  loadMemoryHook : Option (Except String String)
  loadHistoryRes : Except String (List Message)
  appendUserRes : Except String Unit
  spawnRes : Option String
  appendAssistantRes : Except String Unit
  hasMemoryHook : Bool
  memoryHookRes : Except String Unit
  userNow : Nat
  assistantNow : Nat

/-- Observable actions of one `run` invocation, in program order. -/
inductive RunAction where
  | setRunning (b : Bool)
  | emit (e : AgentEvent)
  | loadMemoryCall (agentName : String)
  | loadHistoryCall (agentName : String)
  | appendCall (agentName : String) (msg : Message)
  | spawnCall (opts : SpawnOptions)
  | memoryHookCall (agentName : String) (conversation : List Message)
deriving DecidableEq, Repr

/-- Result of one `run` invocation: its action trace, its promise outcome
(`Except.error` is a rejection seen by the caller of `run`), and the value of
the `running` flag afterwards (what `isRunning()` then returns). -/
structure RunResult where
  trace : List RunAction
  result : Except String Unit
  runningAfter : Bool
deriving Repr

/-- The `try` body of `run` (lines 51–93 of `src/runtime/runner.ts`): load
memory (through the hook when provided), load history, build the prompt and
message list, append the user message, spawn, and on a non-null result append
the assistant message and fire the optional memory hook. A collaborator throw
aborts the remaining steps and is the body's outcome. -/
def runBody (env : RunnerEnv) (input : RunnerInput) :
    List RunAction × Except String Unit :=
  let name := input.agentConfig.name
  match env.loadMemoryHook with
  | some (Except.error e) => ([RunAction.loadMemoryCall name], Except.error e)
  | memOutcome =>
    let memPre : List RunAction :=
      match memOutcome with
      | some _ => [RunAction.loadMemoryCall name]
      | none => []
    let memory : String :=
      match memOutcome with
      | some (Except.ok m) => m
      | _ => input.agentConfig.memory
    match env.loadHistoryRes with
    | Except.error e =>
      (memPre ++ [RunAction.loadHistoryCall name], Except.error e)
    | Except.ok history =>
      let systemPrompt := buildSystemPrompt input.agentConfig.brain memory
      let messages := buildMessages history input.userMessage env.userNow
      let userMsg := messages.getLastD (Message.mk Role.user "" 0)
      let pre1 := memPre ++ [RunAction.loadHistoryCall name,
        RunAction.appendCall name userMsg]
      match env.appendUserRes with
      | Except.error e => (pre1, Except.error e)
      | Except.ok _ =>
        let opts : SpawnOptions :=
          SpawnOptions.mk input.agentConfig.model name systemPrompt messages
        let pre2 := pre1 ++ [RunAction.spawnCall opts]
        match env.spawnRes with
        | none => (pre2, Except.ok ())
        | some fullResponse =>
          let assistantMsg :=
            Message.mk Role.assistant fullResponse env.assistantNow
          let pre3 := pre2 ++ [RunAction.appendCall name assistantMsg]
          match env.appendAssistantRes with
          | Except.error e => (pre3, Except.error e)
          | Except.ok _ =>
            if env.hasMemoryHook then
              let conv := history ++ [userMsg, assistantMsg]
              match env.memoryHookRes with
              | Except.error e =>
                (pre3 ++ [RunAction.memoryHookCall name conv], Except.error e)
              | Except.ok _ =>
                (pre3 ++ [RunAction.memoryHookCall name conv], Except.ok ())
            else (pre3, Except.ok ())

/-- `run` from `createClaudeRunner`: when the runner is already executing,
emit one `AgentErrored` for this agent and return at once (the flag is left
as it was); otherwise set the flag, execute the body, and — `finally` —
clear the flag on every path, rethrowing any body exception afterwards. -/
def ClaudeRunner.run (running : Bool) (env : RunnerEnv) (input : RunnerInput) :
    RunResult :=
  if running then
    { trace := [RunAction.emit (AgentEvent.errored input.agentConfig.name
        ("Agent \"" ++ input.agentConfig.name ++ "\" is already running"))]
      result := Except.ok ()
      runningAfter := running }
  else
    let body := runBody env input
    { trace := RunAction.setRunning true :: body.1 ++ [RunAction.setRunning false]
      result := body.2
      runningAfter := false }

/-- The chunk payloads of the Streaming events of a trace, in publish order. -/
def streamingTexts : List AgentEvent → List String
  | [] => []
  | AgentEvent.streaming _ t :: rest => t :: streamingTexts rest
  | _ :: rest => streamingTexts rest

/-- Concatenation of a list of strings, in order. -/
def concatAll : List String → String
  | [] => ""
  | s :: rest => s ++ concatAll rest

/-- Whether an action publishes an event. -/
def RunAction.isEmit : RunAction → Bool
  | RunAction.emit _ => true
  | _ => false

/-- Whether an action invokes the spawn function. -/
def RunAction.isSpawnCall : RunAction → Bool
  | RunAction.spawnCall _ => true
  | _ => false

/-- Whether an action calls the persistence collaborator. -/
def RunAction.isPersistenceCall : RunAction → Bool
  | RunAction.appendCall _ _ => true
  | RunAction.loadHistoryCall _ => true
  | _ => false

/-- Whether an action writes the executing flag. -/
def RunAction.isSetRunning : RunAction → Bool
  | RunAction.setRunning _ => true
  | _ => false

/-! ## Helper lemmas -/

theorem dispatchSeq_fst (eff : HandlerEffect) (e : AgentEvent) :
    ∀ (l : List HandlerId) (b : Bus), (dispatchSeq eff e l b).1 = l := by
  intro l
  induction l with
  | nil => intro b; rfl
  | cons h rest ih => intro b; simp [dispatchSeq, ih]

theorem streamFold_events (a : String) (lines : List String) :
    ∀ e ∈ (streamFold a lines).1, ∃ t, e = AgentEvent.streaming a t := by
  induction lines with
  | nil => simp [streamFold]
  | cons line rest ih =>
    intro e he
    cases hp : processLine line with
    | none =>
      rw [streamFold, hp] at he
      exact ih e he
    | some t =>
      rw [streamFold, hp] at he
      rcases List.mem_cons.mp he with h1 | h2
      · exact ⟨t, h1⟩
      · exact ih e h2

theorem streamFold_concat (a : String) (lines : List String) :
    (streamFold a lines).2 = concatAll (streamingTexts (streamFold a lines).1) := by
  induction lines with
  | nil => rfl
  | cons line rest ih =>
    cases hp : processLine line with
    | none => rw [streamFold, hp]; exact ih
    | some t => rw [streamFold, hp]; simp [streamingTexts, concatAll, ih]

theorem streamingTexts_append (l1 l2 : List AgentEvent) :
    streamingTexts (l1 ++ l2) = streamingTexts l1 ++ streamingTexts l2 := by
  induction l1 with
  | nil => rfl
  | cons e rest ih => cases e <;> simp [streamingTexts, ih]

theorem streamFold_no_terminal (a : String) (lines : List String) :
    ((streamFold a lines).1.countP fun e => e.isTerminal) = 0 := by
  rw [List.countP_eq_zero]
  intro e he
  obtain ⟨t, rfl⟩ := streamFold_events a lines e he
  simp [AgentEvent.isTerminal]

/-! ## Claim theorems -/

/-- C1: a `run` call on an already-executing runner publishes exactly one
Errored event carrying that agent's name and the conflict message, performs
no spawn call and no persistence call, resolves normally, and leaves the
executing flag set (the in-flight invocation is untouched). -/
theorem C1_busy_run_only_errors (env : RunnerEnv) (input : RunnerInput) :
    (ClaudeRunner.run true env input).trace =
      [RunAction.emit (AgentEvent.errored input.agentConfig.name
        ("Agent \"" ++ input.agentConfig.name ++ "\" is already running"))] ∧
    ((ClaudeRunner.run true env input).trace.countP fun a => a.isEmit) = 1 ∧
    ((ClaudeRunner.run true env input).trace.countP fun a => a.isSpawnCall) = 0 ∧
    ((ClaudeRunner.run true env input).trace.countP fun a => a.isPersistenceCall) = 0 ∧
    (ClaudeRunner.run true env input).runningAfter = true ∧
    (ClaudeRunner.run true env input).result = Except.ok () := by
  refine ⟨rfl, ?_, ?_, ?_, rfl, rfl⟩ <;>
    simp [ClaudeRunner.run, RunAction.isEmit, RunAction.isSpawnCall,
      RunAction.isPersistenceCall]

theorem runBody_no_setRunning (env : RunnerEnv) (input : RunnerInput) :
    ((runBody env input).1.countP fun a => a.isSetRunning) = 0 := by
  obtain ⟨lm, lh, au, sr, aa, hmh, mhr, un, an⟩ := env
  rcases lm with _ | em <;> try rcases em with e | m
  all_goals rcases lh with e2 | hist
  all_goals rcases au with e3 | u
  all_goals rcases sr with _ | fr
  all_goals rcases aa with e4 | u2
  all_goals rcases mhr with e5 | u3
  all_goals cases hmh
  all_goals simp [runBody, RunAction.isSetRunning]

/-- C5: every `run` invocation that passes the busy check first sets the
executing flag and clears it as its final action on every exit path
(collaborator throws included), the body never touches the flag in between,
and `isRunning()` reports false once the invocation settles. -/
theorem C5_flag_always_cleared (env : RunnerEnv) (input : RunnerInput) :
    ∃ mid,
      (ClaudeRunner.run false env input).trace =
        RunAction.setRunning true :: mid ++ [RunAction.setRunning false] ∧
      (mid.countP fun a => a.isSetRunning) = 0 ∧
      (ClaudeRunner.run false env input).runningAfter = false := by
  exact ⟨(runBody env input).1, rfl, runBody_no_setRunning env input, rfl⟩

theorem runBody_no_emit (env : RunnerEnv) (input : RunnerInput) :
    ((runBody env input).1.countP fun a => a.isEmit) = 0 := by
  obtain ⟨lm, lh, au, sr, aa, hmh, mhr, un, an⟩ := env
  rcases lm with _ | em <;> try rcases em with e | m
  all_goals rcases lh with e2 | hist
  all_goals rcases au with e3 | u
  all_goals rcases sr with _ | fr
  all_goals rcases aa with e4 | u2
  all_goals rcases mhr with e5 | u3
  all_goals cases hmh
  all_goals simp [runBody, RunAction.isEmit]

/-- C6: exceptions thrown by the persistence collaborator propagate out of
`run` as rejections — the non-busy path publishes no event of its own, so no
Errored event replaces them — while process-domain failures never reject:
every failing spawn behavior resolves to a null result alongside an Errored
event from the process session, and `run` then resolves normally. -/
theorem C6_error_asymmetry (env : RunnerEnv) (input : RunnerInput) :
    (((ClaudeRunner.run false env input).trace.countP fun a => a.isEmit) = 0) ∧
    (∀ e, (∀ e2, env.loadMemoryHook ≠ some (Except.error e2)) →
      env.loadHistoryRes = Except.error e →
      (ClaudeRunner.run false env input).result = Except.error e) ∧
    (∀ e history, (∀ e2, env.loadMemoryHook ≠ some (Except.error e2)) →
      env.loadHistoryRes = Except.ok history →
      env.appendUserRes = Except.error e →
      (ClaudeRunner.run false env input).result = Except.error e) ∧
    (∀ e history fr, (∀ e2, env.loadMemoryHook ≠ some (Except.error e2)) →
      env.loadHistoryRes = Except.ok history →
      env.appendUserRes = Except.ok () →
      env.spawnRes = some fr →
      env.appendAssistantRes = Except.error e →
      (ClaudeRunner.run false env input).result = Except.error e) ∧
    (∀ history, (∀ e2, env.loadMemoryHook ≠ some (Except.error e2)) →
      env.loadHistoryRes = Except.ok history →
      env.appendUserRes = Except.ok () →
      env.spawnRes = none →
      (ClaudeRunner.run false env input).result = Except.ok ()) ∧
    (∀ opts msg,
      (spawnClaude opts (ProcBehavior.spawnThrow msg)).2 = none ∧
      AgentEvent.errored opts.agentName msg ∈
        (spawnClaude opts (ProcBehavior.spawnThrow msg)).1) ∧
    (∀ opts rb msg, rb.outcome = ProcOutcome.errorEvent msg →
      (spawnClaude opts (ProcBehavior.spawned rb)).2 = none ∧
      AgentEvent.errored opts.agentName msg ∈
        (spawnClaude opts (ProcBehavior.spawned rb)).1) ∧
    (∀ opts rb code, rb.outcome = ProcOutcome.close code → code ≠ some 0 →
      (spawnClaude opts (ProcBehavior.spawned rb)).2 = none) := by
  obtain ⟨lm, lh, au, sr, aa, hmh, mhr, un, an⟩ := env
  refine ⟨?_, ?_, ?_, ?_, ?_, ?_, ?_, ?_⟩
  · simpa [ClaudeRunner.run, RunAction.isEmit] using
      runBody_no_emit ⟨lm, lh, au, sr, aa, hmh, mhr, un, an⟩ input
  · intro e hm hh
    rcases lm with _ | em
    · cases hh; simp [ClaudeRunner.run, runBody]
    · rcases em with e2 | m
      · exact absurd rfl (hm e2)
      · cases hh; simp [ClaudeRunner.run, runBody]
  · intro e history hm hh ha
    rcases lm with _ | em
    · cases hh; cases ha; simp [ClaudeRunner.run, runBody]
    · rcases em with e2 | m
      · exact absurd rfl (hm e2)
      · cases hh; cases ha; simp [ClaudeRunner.run, runBody]
  · intro e history fr hm hh ha hs haa
    rcases lm with _ | em
    · cases hh; cases ha; cases hs; cases haa; simp [ClaudeRunner.run, runBody]
    · rcases em with e2 | m
      · exact absurd rfl (hm e2)
      · cases hh; cases ha; cases hs; cases haa; simp [ClaudeRunner.run, runBody]
  · intro history hm hh ha hs
    rcases lm with _ | em
    · cases hh; cases ha; cases hs; simp [ClaudeRunner.run, runBody]
    · rcases em with e2 | m
      · exact absurd rfl (hm e2)
      · cases hh; cases ha; cases hs; simp [ClaudeRunner.run, runBody]
  · intro opts msg
    exact ⟨rfl, by simp [spawnClaude]⟩
  · intro opts rb msg ho
    constructor
    · simp [spawnClaude, ho]
    · simp [spawnClaude, ho]
  · intro opts rb code ho hc
    simp [spawnClaude, ho, hc]

/-- C6 witness: a persistence failure while loading history rejects `run`
with that same error, and a throwing spawn call resolves to null. -/
theorem C6_error_asymmetry_witness :
    (ClaudeRunner.run false
      (RunnerEnv.mk none (Except.error "db down") (Except.ok ()) none
        (Except.ok ()) false (Except.ok ()) 0 0)
      (RunnerInput.mk (AgentConfig.mk "a" "" "m" "B" "M" []) "hi")).result =
      Except.error "db down" ∧
    (spawnClaude (SpawnOptions.mk "m" "a" "sys" [])
      (ProcBehavior.spawnThrow "ENOENT")).2 = none := by
  constructor
  · exact (C6_error_asymmetry
      (RunnerEnv.mk none (Except.error "db down") (Except.ok ()) none
        (Except.ok ()) false (Except.ok ()) 0 0)
      (RunnerInput.mk (AgentConfig.mk "a" "" "m" "B" "M" []) "hi")).2.1
      "db down" (fun e2 h2 => Option.noConfusion h2) rfl
  · exact ((C6_error_asymmetry
      (RunnerEnv.mk none (Except.error "db down") (Except.ok ()) none
        (Except.ok ()) false (Except.ok ()) 0 0)
      (RunnerInput.mk (AgentConfig.mk "a" "" "m" "B" "M" []) "hi")).2.2.2.2.2.1
      (SpawnOptions.mk "m" "a" "sys" []) "ENOENT").1

/-- C4: once past the busy check (with memory and history loads succeeding),
the spawn function is invoked exactly once and the user turn is persisted
strictly before it; the assistant turn is persisted iff the spawn resolves
non-null; on success with the hook configured, the hook receives
history + user turn + assistant turn; on process failure no assistant turn
and no hook call occur. -/
theorem C4_persistence_sequencing (env : RunnerEnv) (input : RunnerInput)
    (history : List Message)
    (hm : ∀ e, env.loadMemoryHook ≠ some (Except.error e))
    (hh : env.loadHistoryRes = Except.ok history)
    (ha : env.appendUserRes = Except.ok ()) :
    ((ClaudeRunner.run false env input).trace.countP fun a => a.isSpawnCall) = 1 ∧
    RunAction.appendCall input.agentConfig.name
        (Message.mk Role.user input.userMessage env.userNow) ∈
      ((ClaudeRunner.run false env input).trace.takeWhile
        fun a => !a.isSpawnCall) ∧
    ((∃ m, m.role = Role.assistant ∧
        RunAction.appendCall input.agentConfig.name m ∈
          (ClaudeRunner.run false env input).trace) ↔ env.spawnRes ≠ none) ∧
    (∀ fr, env.spawnRes = some fr → env.appendAssistantRes = Except.ok () →
      env.hasMemoryHook = true →
      RunAction.memoryHookCall input.agentConfig.name
          (history ++ [Message.mk Role.user input.userMessage env.userNow,
            Message.mk Role.assistant fr env.assistantNow]) ∈
        (ClaudeRunner.run false env input).trace) ∧
    (env.spawnRes = none →
      ∀ conv, RunAction.memoryHookCall input.agentConfig.name conv ∉
        (ClaudeRunner.run false env input).trace) := by
  obtain ⟨lm, lh, au, sr, aa, hmh, mhr, un, an⟩ := env
  rcases lm with _ | em
  case some =>
    rcases em with e2 | m
    · exact absurd rfl (hm e2)
    · cases hh; cases ha
      rcases sr with _ | fr
      all_goals rcases aa with e4 | u2
      all_goals cases hmh
      all_goals rcases mhr with e5 | u3
      all_goals refine ⟨?_, ?_, ?_, ?_, ?_⟩
      all_goals simp [ClaudeRunner.run, runBody, buildMessages,
        List.getLastD_concat, RunAction.isSpawnCall]
      all_goals exact ⟨Message.mk Role.assistant fr an, rfl, Or.inr rfl⟩
  case none =>
    cases hh; cases ha
    rcases sr with _ | fr
    all_goals rcases aa with e4 | u2
    all_goals cases hmh
    all_goals rcases mhr with e5 | u3
    all_goals refine ⟨?_, ?_, ?_, ?_, ?_⟩
    all_goals simp [ClaudeRunner.run, runBody, buildMessages,
      List.getLastD_concat, RunAction.isSpawnCall]
    all_goals exact ⟨Message.mk Role.assistant fr an, rfl, Or.inr rfl⟩

/-- C4 witness: with clean collaborators and a successful spawn, the hook is
invoked with history + user turn + assistant turn. -/
theorem C4_persistence_sequencing_witness :
    RunAction.memoryHookCall "a"
        [Message.mk Role.user "hi" 5, Message.mk Role.assistant "resp" 9] ∈
      (ClaudeRunner.run false
        (RunnerEnv.mk none (Except.ok []) (Except.ok ()) (some "resp")
          (Except.ok ()) true (Except.ok ()) 5 9)
        (RunnerInput.mk (AgentConfig.mk "a" "" "m" "B" "M" []) "hi")).trace := by
  exact (C4_persistence_sequencing
    (RunnerEnv.mk none (Except.ok []) (Except.ok ()) (some "resp")
      (Except.ok ()) true (Except.ok ()) 5 9)
    (RunnerInput.mk (AgentConfig.mk "a" "" "m" "B" "M" []) "hi")
    [] (fun e h2 => Option.noConfusion h2) rfl rfl).2.2.2.1 "resp" rfl rfl rfl

/-- C2: the claimed invariant fails in the code on the failure-to-start
path. When the spawn fails asynchronously, the `error` handler publishes an
`AgentErrored`, and Node then fires `close` with a `null` exit code; since
`null !== 0`, that handler publishes a second `AgentErrored` (`settled`
guards only the promise resolution, not the emissions). At the concrete
failing input — no stdout, no stderr, `error` "spawn claude ENOENT" then
`close null` — the invocation publishes two terminal events, against the
documented `AgentStarted → AgentStreaming (0..n) → AgentCompleted |
AgentErrored` contract, while still resolving null. -/
theorem C2_failed_spawn_two_terminals :
    ((spawnClaude (SpawnOptions.mk "m" "a" "s" [])
      (ProcBehavior.spawned (RunBehavior.mk [] []
        (ProcOutcome.errorThenClose "spawn claude ENOENT" none)))).1.countP
          fun e => e.isTerminal) = 2 ∧
    (spawnClaude (SpawnOptions.mk "m" "a" "s" [])
      (ProcBehavior.spawned (RunBehavior.mk [] []
        (ProcOutcome.errorThenClose "spawn claude ENOENT" none)))).1 =
      [AgentEvent.started "a",
        AgentEvent.errored "a" "spawn claude ENOENT",
        AgentEvent.errored "a" "Claude exited with code null"] ∧
    (spawnClaude (SpawnOptions.mk "m" "a" "s" [])
      (ProcBehavior.spawned (RunBehavior.mk [] []
        (ProcOutcome.errorThenClose "spawn claude ENOENT" none)))).2 = none := by
  refine ⟨?_, ?_, rfl⟩
  · decide
  · rfl


/-- C7: on close with nonzero (or null) exit code the session publishes an
Errored whose message is the trimmed stderr text — or a generic message
naming the exit code when no diagnostic was produced — and resolves null; on
exit code 0 it publishes a Completed carrying the accumulated text, equal to
the concatenation in publish order of the invocation's Streaming chunk
payloads, and resolves to that text. -/
theorem C7_close_semantics (opts : SpawnOptions) (rb : RunBehavior)
    (code : Option Int) (h : rb.outcome = ProcOutcome.close code) :
    (code ≠ some 0 →
      (spawnClaude opts (ProcBehavior.spawned rb)).2 = none ∧
      ∃ pre m,
        (spawnClaude opts (ProcBehavior.spawned rb)).1 =
          pre ++ [AgentEvent.errored opts.agentName m] ∧
        (jsTrim (String.join rb.stderrData) ≠ "" ∧
            m = jsTrim (String.join rb.stderrData) ∨
          jsTrim (String.join rb.stderrData) = "" ∧
            m = "Claude exited with code " ++ codeString code)) ∧
    (code = some 0 →
      ∃ pre full,
        (spawnClaude opts (ProcBehavior.spawned rb)).1 =
          pre ++ [AgentEvent.completed opts.agentName full] ∧
        full = concatAll (streamingTexts
          (spawnClaude opts (ProcBehavior.spawned rb)).1) ∧
        (spawnClaude opts (ProcBehavior.spawned rb)).2 = some full) := by
  constructor
  · intro hc
    constructor
    · simp [spawnClaude, h, hc]
    · by_cases hs : jsTrim (String.join rb.stderrData) = ""
      · refine ⟨AgentEvent.started opts.agentName :: (streamFold opts.agentName
            (rb.stdoutData.flatMap splitLines)).1,
          "Claude exited with code " ++ codeString code, ?_, Or.inr ⟨hs, rfl⟩⟩
        simp [spawnClaude, h, hc, hs]
      · refine ⟨AgentEvent.started opts.agentName :: (streamFold opts.agentName
            (rb.stdoutData.flatMap splitLines)).1,
          jsTrim (String.join rb.stderrData), ?_, Or.inl ⟨hs, rfl⟩⟩
        simp [spawnClaude, h, hc, hs]
  · intro hc
    subst hc
    have hev : (spawnClaude opts (ProcBehavior.spawned rb)).1 =
        AgentEvent.started opts.agentName :: (streamFold opts.agentName
          (rb.stdoutData.flatMap splitLines)).1 ++
          [AgentEvent.completed opts.agentName (streamFold opts.agentName
            (rb.stdoutData.flatMap splitLines)).2] := by
      simp [spawnClaude, h]
    refine ⟨AgentEvent.started opts.agentName :: (streamFold opts.agentName
        (rb.stdoutData.flatMap splitLines)).1,
      (streamFold opts.agentName
        (rb.stdoutData.flatMap splitLines)).2, by simpa using hev, ?_, ?_⟩
    · rw [hev]
      have h1 : streamingTexts (AgentEvent.started opts.agentName ::
          (streamFold opts.agentName
            (rb.stdoutData.flatMap splitLines)).1 ++
          [AgentEvent.completed opts.agentName (streamFold opts.agentName
            (rb.stdoutData.flatMap splitLines)).2]) =
          streamingTexts ((streamFold opts.agentName
            (rb.stdoutData.flatMap splitLines)).1 ++
          [AgentEvent.completed opts.agentName (streamFold opts.agentName
            (rb.stdoutData.flatMap splitLines)).2]) := rfl
      rw [h1, streamingTexts_append]
      have h2 : streamingTexts [AgentEvent.completed opts.agentName
          (streamFold opts.agentName
            (rb.stdoutData.flatMap splitLines)).2] = [] := rfl
      rw [h2, List.append_nil]
      exact streamFold_concat opts.agentName
        (rb.stdoutData.flatMap splitLines)
    · simp [spawnClaude, h]

/-- C7 witness: exit code 2 with diagnostic resolves null; exit code 0 with
two fallback lines completes with their concatenation. -/
theorem C7_close_semantics_witness :
    (spawnClaude (SpawnOptions.mk "m" "a" "s" [])
      (ProcBehavior.spawned (RunBehavior.mk [] ["  boom "]
        (ProcOutcome.close (some 2))))).2 = none ∧
    (spawnClaude (SpawnOptions.mk "m" "a" "s" [])
      (ProcBehavior.spawned (RunBehavior.mk ["Hello\nworld"] []
        (ProcOutcome.close (some 0))))).2 = some "Helloworld" := by
  constructor
  · exact ((C7_close_semantics (SpawnOptions.mk "m" "a" "s" [])
      (RunBehavior.mk [] ["  boom "] (ProcOutcome.close (some 2)))
      (some 2) rfl).1 (by decide)).1
  · obtain ⟨pre, full, h1, h2, h3⟩ :=
      (C7_close_semantics (SpawnOptions.mk "m" "a" "s" [])
        (RunBehavior.mk ["Hello\nworld"] [] (ProcOutcome.close (some 0)))
        (some 0) rfl).2 rfl
    have h4 : full = "Helloworld" := h2.trans (by decide)
    exact h4 ▸ h3

/-- C3 counterexample: the line `\x7b"type":"message_stop"\x7d` is non-empty
after trimming and parses as a structured object without the incremental-text
field, yet the stream loop publishes nothing for it and accumulates nothing —
the claim that every such line is republished as a fallback chunk fails. -/
theorem C3_counterexample :
    jsTrim "\x7b\"type\":\"message_stop\"\x7d" ≠ "" ∧
    streamFold "a" ["\x7b\"type\":\"message_stop\"\x7d"] = ([], "") := by
  constructor
  · decide
  · rfl

/-- C3 (amended): for every stdout line, an empty-after-trim line contributes
nothing; a line on which `JSON.parse` throws (or whose extraction throws, for
the JSON literal `null`) is published and accumulated as the trimmed fallback
chunk; a line parsing to a value with nonempty extracted text is published
and accumulated as that text; but a line that parses as JSON while yielding
no nonempty incremental text is silently dropped. -/
theorem C3_line_handling (agentName line : String) :
    (jsTrim line = "" → streamFold agentName [line] = ([], "")) ∧
    (jsTrim line ≠ "" → parseJson (jsTrim line) = none →
      streamFold agentName [line] =
        ([AgentEvent.streaming agentName (jsTrim line)], jsTrim line)) ∧
    (∀ v, jsTrim line ≠ "" → parseJson (jsTrim line) = some v →
      extractText v = Except.error () →
      streamFold agentName [line] =
        ([AgentEvent.streaming agentName (jsTrim line)], jsTrim line)) ∧
    (∀ v t, jsTrim line ≠ "" → parseJson (jsTrim line) = some v →
      extractText v = Except.ok t → t ≠ "" →
      streamFold agentName [line] = ([AgentEvent.streaming agentName t], t)) ∧
    (∀ v, parseJson (jsTrim line) = some v → extractText v = Except.ok "" →
      streamFold agentName [line] = ([], "")) := by
  refine ⟨?_, ?_, ?_, ?_, ?_⟩
  · intro h1
    simp [streamFold, processLine, h1]
  · intro h1 h2
    simp [streamFold, processLine, h1, h2]
  · intro v h1 h2 h3
    simp [streamFold, processLine, h1, h2, h3]
  · intro v t h1 h2 h3 h4
    simp [streamFold, processLine, h1, h2, h3, h4]
  · intro v h2 h3
    by_cases h1 : jsTrim line = ""
    · simp [streamFold, processLine, h1]
    · simp [streamFold, processLine, h1, h2, h3]

/-- C3 witness: a non-JSON line is republished trimmed, and a delta line is
published as its extracted text. -/
theorem C3_line_handling_witness :
    streamFold "a" ["hello]"] =
      ([AgentEvent.streaming "a" (jsTrim "hello]")], jsTrim "hello]") ∧
    streamFold "a"
        ["\x7b\"type\":\"content_block_delta\",\"delta\":\x7b\"text\":\"Hi\"\x7d\x7d"] =
      ([AgentEvent.streaming "a" "Hi"], "Hi") := by
  constructor
  · exact (C3_line_handling "a" "hello]").2.1 (by decide) (by rfl)
  · exact (C3_line_handling "a"
      "\x7b\"type\":\"content_block_delta\",\"delta\":\x7b\"text\":\"Hi\"\x7d\x7d").2.2.2.1
      (JsonValue.obj [("type", JsonValue.str "content_block_delta"),
        ("delta", JsonValue.obj [("text", JsonValue.str "Hi")])]) "Hi"
      (by decide) (by rfl) (by rfl) (by decide)

/-- C8: `buildSystemPrompt` returns the trimmed persona unmodified whenever
the notes trim to empty (whitespace-only included), and otherwise the trimmed
persona, the literal separator (two newlines, `---`, a newline, `## Memory`,
two newlines), then the trimmed notes. -/
theorem C8_buildSystemPrompt_spec (persona notes : String) :
    (jsTrim notes = "" → buildSystemPrompt persona notes = jsTrim persona) ∧
    (jsTrim notes ≠ "" → buildSystemPrompt persona notes =
      jsTrim persona ++ "\n\n---\n## Memory\n\n" ++ jsTrim notes) := by
  constructor <;> intro h <;> simp [buildSystemPrompt, h]

/-- C8 witness: whitespace-only notes leave the persona trimmed and alone;
nonempty notes append the memory section verbatim. -/
theorem C8_buildSystemPrompt_spec_witness :
    buildSystemPrompt "  P  " "   " = jsTrim "  P  " ∧
    buildSystemPrompt "B" "M" = jsTrim "B" ++ "\n\n---\n## Memory\n\n" ++ jsTrim "M" := by
  constructor
  · exact (C8_buildSystemPrompt_spec "  P  " "   ").1 (by decide)
  · exact (C8_buildSystemPrompt_spec "B" "M").2 (by decide)

/-- C9: `emit` invokes exactly the handlers subscribed to the event's kind at
the moment of the call, each once, in subscription order — whatever
subscriptions or unsubscriptions the handlers themselves perform during
dispatch, because the delivery list is snapshotted before iteration. -/
theorem C9_emit_snapshot (b : Bus) (eff : HandlerEffect) (e : AgentEvent)
    (hwf : Bus.WF b) :
    (Bus.emit b eff e).1 = b e.type ∧ (Bus.emit b eff e).1.Nodup := by
  have h1 : (Bus.emit b eff e).1 = b e.type := dispatchSeq_fst eff e (b e.type) b
  exact ⟨h1, h1 ▸ hwf e.type⟩

/-- C9 witness: with two subscribed handlers, the first unsubscribing the
second mid-dispatch, both are still invoked, in order. -/
theorem C9_emit_snapshot_witness :
    (((Bus.empty.on AgentEventType.AgentStreaming 1).on
        AgentEventType.AgentStreaming 2).emit
      (fun _ _ b => b.off AgentEventType.AgentStreaming 2)
      (AgentEvent.streaming "a" "x")).1 = [1, 2] := by
  have hwf : Bus.WF ((Bus.empty.on AgentEventType.AgentStreaming 1).on
      AgentEventType.AgentStreaming 2) := by
    intro k; cases k <;> decide
  exact ((C9_emit_snapshot ((Bus.empty.on AgentEventType.AgentStreaming 1).on
      AgentEventType.AgentStreaming 2)
    (fun _ _ b => b.off AgentEventType.AgentStreaming 2)
    (AgentEvent.streaming "a" "x") hwf).1).trans (by decide)

theorem bus_on_count (b : Bus) (k : AgentEventType) (h : HandlerId)
    (hwf : Bus.WF b) : ((Bus.on b k h) k).count h = 1 := by
  by_cases hm : h ∈ b k
  · have hb : (Bus.on b k h) k = b k := by simp [Bus.on, hm]
    rw [hb]
    exact List.count_eq_one_of_mem (hwf k) hm
  · have hb : (Bus.on b k h) k = b k ++ [h] := by simp [Bus.on, hm]
    rw [hb, List.count_append, List.count_eq_zero_of_not_mem hm]
    simp

/-- C10: subscribing the same handler reference twice to one kind registers
it only once (the second `on` is a no-op on the registry), an emit of that
kind then invokes it exactly once, and a single `off` — the same deletion the
returned unsubscribe closures perform — removes it entirely. -/
theorem C10_set_registry (b : Bus) (k : AgentEventType) (h : HandlerId)
    (hwf : Bus.WF b) :
    Bus.on (Bus.on b k h) k h = Bus.on b k h ∧
    ((Bus.on (Bus.on b k h) k h) k).count h = 1 ∧
    (∀ (eff : HandlerEffect) (e : AgentEvent), e.type = k →
      ((Bus.on (Bus.on b k h) k h).emit eff e).1.count h = 1) ∧
    h ∉ (Bus.off (Bus.on (Bus.on b k h) k h) k h) k := by
  have hid : Bus.on (Bus.on b k h) k h = Bus.on b k h := by
    funext k2
    by_cases hk : k2 = k
    · subst hk
      by_cases hm : h ∈ b k2
      · simp [Bus.on, hm]
      · simp [Bus.on, hm]
    · simp [Bus.on, hk]
  have hcount : ((Bus.on b k h) k).count h = 1 := bus_on_count b k h hwf
  refine ⟨hid, by rw [hid]; exact hcount, ?_, ?_⟩
  · intro eff e he
    have hfst : ((Bus.on (Bus.on b k h) k h).emit eff e).1 =
        (Bus.on (Bus.on b k h) k h) e.type :=
      dispatchSeq_fst eff e ((Bus.on (Bus.on b k h) k h) e.type)
        (Bus.on (Bus.on b k h) k h)
    rw [hfst, hid, he]
    exact hcount
  · rw [hid]
    simp [Bus.off]

/-- C10 witness: on an empty registry, double subscription yields a single
registration and one `off` leaves the handler unsubscribed. -/
theorem C10_set_registry_witness :
    ((Bus.on (Bus.on Bus.empty AgentEventType.AgentStarted 7)
        AgentEventType.AgentStarted 7) AgentEventType.AgentStarted).count 7 = 1 ∧
    7 ∉ (Bus.off (Bus.on (Bus.on Bus.empty AgentEventType.AgentStarted 7)
        AgentEventType.AgentStarted 7) AgentEventType.AgentStarted 7)
      AgentEventType.AgentStarted := by
  have hwf : Bus.WF Bus.empty := by intro k; cases k <;> decide
  exact ⟨(C10_set_registry Bus.empty AgentEventType.AgentStarted 7 hwf).2.1,
    (C10_set_registry Bus.empty AgentEventType.AgentStarted 7 hwf).2.2.2⟩
